import Mathlib

/-!
# Pod egress rules of the network routing controller

A shallow embedding of `pkg/controllers/routing/pod_egress.go`.

* The four package-level variables (`podEgressArgs4`, `podEgressArgs6`,
  `podEgressArgsBad4`, `podEgressArgsBad6`) become the fields of `Globals`;
  a function that assigns to one of them returns the new `Globals`.
* Go slices are modelled by lists.  The only slice that is ever written
  through is the one `preparePodEgress` builds with `append` and then
  stores back in the variable it was read from, so no second live slice
  observes the backing array and the value of the variable after the
  assignment is the list `args[0:len-1] ++ new tokens` whether or not
  `append` reallocated.
* The iptables handle (`AppendUnique`, `Exists`, `Delete` on table `nat`,
  chain `POSTROUTING`) is an external collaborator.  It is modelled by a
  chain of rules, a log of the calls issued, and a fault plan that decides
  which call fails.
* A Go `error` is its message: `none` is `nil`.
* The `glog` calls write to the log only and are left out, as are the two
  parameters of `preparePodEgress` that its body never reads.
-/

namespace PodEgress

/-- A rule spec: the ordered iptables argument tokens of one rule. -/
abbrev Rule := List String

/-- The package-level variables of `pod_egress.go`. -/
structure Globals where
  podEgressArgs4 : List String
  podEgressArgs6 : List String
  podEgressArgsBad4 : List (List String)
  podEgressArgsBad6 : List (List String)
deriving DecidableEq, Repr

/-- The `var ( ... )` block, lines 14-29.  The two ipset names are constants
declared in another file of the package and are taken as parameters. -/
def initGlobals (podSubnetsIPSetName nodeAddrsIPSetName : String) : Globals where
  podEgressArgs4 :=
    ["-m", "set", "--match-set", podSubnetsIPSetName, "src",
     "-m", "set", "!", "--match-set", podSubnetsIPSetName, "dst",
     "-m", "set", "!", "--match-set", nodeAddrsIPSetName, "dst",
     "-j", "MASQUERADE"]
  podEgressArgs6 :=
    ["-m", "set", "--match-set", "inet6:" ++ podSubnetsIPSetName, "src",
     "-m", "set", "!", "--match-set", "inet6:" ++ podSubnetsIPSetName, "dst",
     "-m", "set", "!", "--match-set", "inet6:" ++ nodeAddrsIPSetName, "dst",
     "-j", "MASQUERADE"]
  podEgressArgsBad4 :=
    [["-m", "set", "--match-set", podSubnetsIPSetName, "src",
      "-m", "set", "!", "--match-set", podSubnetsIPSetName, "dst",
      "-j", "MASQUERADE"]]
  podEgressArgsBad6 :=
    [["-m", "set", "--match-set", "inet6:" ++ podSubnetsIPSetName, "src",
      "-m", "set", "!", "--match-set", "inet6:" ++ podSubnetsIPSetName, "dst",
      "-j", "MASQUERADE"]]

/-- The two fields of `NetworkRoutingController` that this file reads.
`egressIP` is `none` for a nil `net.IP`; otherwise it carries the text
that `egressIP.String()` returns. -/
structure NetworkRoutingController where
  isIpv6 : Bool
  egressIP : Option String
deriving DecidableEq, Repr

/-- Lines 31-50.  `none` is the run-time panic of `args[0 : len(args)-1]`
on an empty slice. -/
def preparePodEgress (nrc : NetworkRoutingController) (g : Globals) : Option Globals :=
  match nrc.egressIP with
  | none => some g
  | some ip =>
    let args := if nrc.isIpv6 then g.podEgressArgs6 else g.podEgressArgs4
    if args.length = 0 then none
    else
      let args := args.take (args.length - 1)
      let args := args ++ ["SNAT", "--to", ip]
      if nrc.isIpv6 then some { g with podEgressArgs6 := args }
      else some { g with podEgressArgs4 := args }

/-- The local `podEgressArgs` of `createPodEgressRule` and
`deletePodEgressRule` (lines 58-61 and 79-82). -/
def podEgressArgs (nrc : NetworkRoutingController) (g : Globals) : Rule :=
  if nrc.isIpv6 then g.podEgressArgs6 else g.podEgressArgs4

/-- The local `podEgressArgsBad` of `deleteBadPodEgressRules` (lines 105-108). -/
def podEgressArgsBad (nrc : NetworkRoutingController) (g : Globals) : List Rule :=
  if nrc.isIpv6 then g.podEgressArgsBad6 else g.podEgressArgsBad4

/-- One call issued against the handle; every call of the file addresses
table `nat`, chain `POSTROUTING`. -/
inductive Call where
  | appendUnique (rule : Rule)
  | check (rule : Rule)
  | delete (rule : Rule)
deriving DecidableEq, Repr

/-- The packet-filter state: the rules of `nat`/`POSTROUTING` in order, and
the calls issued so far. -/
structure Iptables where
  chain : List Rule
  calls : List Call
deriving DecidableEq, Repr

/-- Modelled from the spec: the packet-filter handle and
`newIptablesCmdHandler` are not in this file.  A fault plan says, for the
current state, whether acquiring the handle or one of the three calls fails
and with which message. -/
structure IptablesCmdHandler where
  newIptablesCmdHandler : Iptables → Option String
  appendUniqueErr : Iptables → Rule → Option String
  existsErr : Iptables → Rule → Option String
  deleteErr : Iptables → Rule → Option String

/-- Modelled from the spec: `AppendUnique` ensures the rule is present,
appending it at the end only when no rule with the same token sequence is in
the chain; a failed call leaves the chain as it was. -/
def IptablesCmdHandler.AppendUnique (h : IptablesCmdHandler) (w : Iptables) (rule : Rule) :
    Option String × Iptables :=
  let w1 : Iptables := { w with calls := w.calls ++ [Call.appendUnique rule] }
  match h.appendUniqueErr w rule with
  | some e => (some e, w1)
  | none => (none, if rule ∈ w.chain then w1 else { w1 with chain := w.chain ++ [rule] })

/-- Modelled from the spec: `Exists` is an exact full-sequence match. -/
def IptablesCmdHandler.Exists (h : IptablesCmdHandler) (w : Iptables) (rule : Rule) :
    (Bool × Option String) × Iptables :=
  let w1 : Iptables := { w with calls := w.calls ++ [Call.check rule] }
  match h.existsErr w rule with
  | some e => ((false, some e), w1)
  | none => ((decide (rule ∈ w.chain), none), w1)

/-- Modelled from the spec: `Delete` removes one rule with exactly this token
sequence (the first one).  Whether a delete of an absent rule fails is left to
the fault plan; a failed call leaves the chain as it was. -/
def IptablesCmdHandler.Delete (h : IptablesCmdHandler) (w : Iptables) (rule : Rule) :
    Option String × Iptables :=
  let w1 : Iptables := { w with calls := w.calls ++ [Call.delete rule] }
  match h.deleteErr w rule with
  | some e => (some e, w1)
  | none => (none, { w1 with chain := w.chain.erase rule })

/-- Lines 52-71. -/
def createPodEgressRule (nrc : NetworkRoutingController) (g : Globals)
    (h : IptablesCmdHandler) (w : Iptables) : Option String × Iptables :=
  match h.newIptablesCmdHandler w with
  | some err => (some ("Failed create iptables handler:" ++ err), w)
  | none =>
    match h.AppendUnique w (podEgressArgs nrc g) with
    | (some err, w1) =>
      (some ("Failed to add iptable rule for outbound traffic from pods: " ++
        err ++ "External connectivity will not work."), w1)
    | (none, w1) => (none, w1)

/-- Lines 73-98. -/
def deletePodEgressRule (nrc : NetworkRoutingController) (g : Globals)
    (h : IptablesCmdHandler) (w : Iptables) : Option String × Iptables :=
  match h.newIptablesCmdHandler w with
  | some err => (some ("Failed create iptables handler:" ++ err), w)
  | none =>
    match h.Exists w (podEgressArgs nrc g) with
    | ((_, some err), w1) =>
      (some ("Failed to lookup iptable rule for outbound traffic from pods: " ++ err), w1)
    | ((found, none), w1) =>
      if found then
        match h.Delete w1 (podEgressArgs nrc g) with
        | (some err, w2) =>
          (some ("Failed to delete iptable rule for outbound traffic from pods: " ++
            err ++ ". Pod egress might still work..."), w2)
        | (none, w2) => (none, w2)
      else (none, w1)

/-- The `for _, args := range podEgressArgsBad` loop, lines 109-125. -/
def deleteBadPodEgressRulesLoop (h : IptablesCmdHandler) :
    List Rule → Iptables → Option String × Iptables
  | [], w => (none, w)
  | args :: rest, w =>
    match h.Exists w args with
    | ((_, some err), w1) => (some ("Failed to lookup iptables rule: " ++ err), w1)
    | ((found, none), w1) =>
      if found then
        match h.Delete w1 args with
        | (some err, w2) =>
          (some ("Failed to delete old/bad iptable rule to " ++
            "masqurade outbound traffic from pods: " ++ err ++ ".\n" ++
            "Pod egress might still work, or bugs may persist after upgrade..."), w2)
        | (none, w2) => deleteBadPodEgressRulesLoop h rest w2
      else deleteBadPodEgressRulesLoop h rest w1

/-- Lines 100-128. -/
def deleteBadPodEgressRules (nrc : NetworkRoutingController) (g : Globals)
    (h : IptablesCmdHandler) (w : Iptables) : Option String × Iptables :=
  match h.newIptablesCmdHandler w with
  | some err => (some ("Failed create iptables handler:" ++ err), w)
  | none => deleteBadPodEgressRulesLoop h (podEgressArgsBad nrc g) w

/-- A fault plan in which nothing fails. -/
def healthy : IptablesCmdHandler where
  newIptablesCmdHandler := fun _ => none
  appendUniqueErr := fun _ _ => none
  existsErr := fun _ _ => none
  deleteErr := fun _ _ => none

/-- A handle never fails: every fault of its plan is absent in every state. -/
def NoFailures (h : IptablesCmdHandler) : Prop :=
  ∀ w rule, h.newIptablesCmdHandler w = none ∧ h.appendUniqueErr w rule = none ∧
    h.existsErr w rule = none ∧ h.deleteErr w rule = none

/-- The tokens that directly follow a `--match-set` token: the named sets a
rule spec refers to. -/
def matchSetNames : List String → List String
  | a :: b :: rest =>
    if a = "--match-set" then b :: matchSetNames (b :: rest) else matchSetNames (b :: rest)
  | _ => []

/-- The token starts with the IPv6 qualifier `inet6:`. -/
def inet6Qualified (t : String) : Prop := "inet6:".data <+: t.data

instance (t : String) : Decidable (inet6Qualified t) := by
  unfold inet6Qualified; infer_instance

/-- The globals of the spec's scenario: sets `pod-subnets` and `node-addrs`. -/
def scenarioGlobals : Globals := initGlobals "pod-subnets" "node-addrs"

/-- A chain holding one unrelated rule and no call issued yet. -/
def scenarioTable : Iptables := ⟨[["-j", "ACCEPT"]], []⟩

/-- A fault plan in which `Delete` fails exactly when no rule matches, as
`iptables -D` does; nothing else fails. -/
def strictDelete : IptablesCmdHandler where
  newIptablesCmdHandler := fun _ => none
  appendUniqueErr := fun _ _ => none
  existsErr := fun _ _ => none
  deleteErr := fun w rule =>
    if rule ∈ w.chain then none
    else some "Bad rule (does a matching rule exist in that chain?)"

/-- A fault plan in which every `AppendUnique` fails; nothing else fails. -/
def appendFails : IptablesCmdHandler where
  newIptablesCmdHandler := fun _ => none
  appendUniqueErr := fun _ _ => some "exit status 4: xtables lock held. "
  existsErr := fun _ _ => none
  deleteErr := fun _ _ => none

/-- A fault plan in which every `Exists` fails; nothing else fails. -/
def lookupFails : IptablesCmdHandler where
  newIptablesCmdHandler := fun _ => none
  appendUniqueErr := fun _ _ => none
  existsErr := fun _ _ => some "exit status 4: xtables lock held"
  deleteErr := fun _ _ => none

/-- A chain that holds the IPv4 legacy entry and, after it, the current IPv4
masquerade spec of the scenario. -/
def migrationTable : Iptables :=
  ⟨podEgressArgsBad ⟨false, none⟩ scenarioGlobals ++
    [podEgressArgs ⟨false, none⟩ scenarioGlobals], []⟩

/-- A chain that holds two copies of the IPv4 legacy entry of the scenario. -/
def duplicateLegacyTable : Iptables :=
  ⟨podEgressArgsBad ⟨false, none⟩ scenarioGlobals ++
    podEgressArgsBad ⟨false, none⟩ scenarioGlobals, []⟩

/-- The IPv4 legacy entry of the scenario. -/
def legacyA : Rule :=
  ["-m", "set", "--match-set", "pod-subnets", "src",
   "-m", "set", "!", "--match-set", "pod-subnets", "dst", "-j", "MASQUERADE"]

/-- An older rule variant, used as a second catalog entry. -/
def legacyB : Rule := ["-m", "set", "--match-set", "pod-subnets", "src", "-j", "MASQUERADE"]

/-- The scenario's globals with a second entry in the IPv4 legacy catalog. -/
def twoLegacyGlobals : Globals :=
  { scenarioGlobals with podEgressArgsBad4 := scenarioGlobals.podEgressArgsBad4 ++ [legacyB] }

/-- A chain that holds both entries of the two-entry catalog. -/
def twoLegacyTable : Iptables := ⟨podEgressArgsBad ⟨false, none⟩ twoLegacyGlobals, []⟩

/-- A fault plan in which the `Delete` of one given rule fails; nothing else
fails. -/
def deleteFailsOn (bad : Rule) : IptablesCmdHandler where
  newIptablesCmdHandler := fun _ => none
  appendUniqueErr := fun _ _ => none
  existsErr := fun _ _ => none
  deleteErr := fun _ rule => if rule = bad then some "exit status 4: xtables lock held" else none

/-! ## Rule spec derivation -/

theorem inet6_append_ne_masquerade (s : String) : "inet6:" ++ s ≠ "MASQUERADE" := by
  intro h
  have h2 := congrArg String.data h
  simp at h2

theorem inet6_append_ne_matchSet (s : String) : ("inet6:" ++ s = "--match-set") = False := by
  simp only [eq_iff_iff, iff_false]
  intro h
  have h2 := congrArg String.data h
  simp at h2

theorem inet6Qualified_append (s : String) : inet6Qualified ("inet6:" ++ s) := by
  unfold inet6Qualified
  exact ⟨s.data, by simp⟩

/-- Both initial templates have 19 tokens: 17 for the three match clauses,
then `-j` and `MASQUERADE`. -/
theorem initGlobals_template (pod node : String) (nrc : NetworkRoutingController) :
    (podEgressArgs nrc (initGlobals pod node)).length = 19 ∧
    podEgressArgs nrc (initGlobals pod node) =
      (podEgressArgs nrc (initGlobals pod node)).take 17 ++ ["-j", "MASQUERADE"] := by
  rcases nrc with ⟨v6, e⟩
  cases v6 <;> simp [initGlobals, podEgressArgs]

/-- From the initial templates, one derivation with an egress address keeps
the 17 match tokens and ends in `-j SNAT --to a`. -/
theorem prepare_init_snat (pod node a : String) (v6 : Bool) :
    (preparePodEgress ⟨v6, some a⟩ (initGlobals pod node)).map (podEgressArgs ⟨v6, some a⟩) =
      some ((podEgressArgs ⟨v6, some a⟩ (initGlobals pod node)).take 17 ++
        ["-j", "SNAT", "--to", a]) := by
  cases v6 <;> simp [preparePodEgress, initGlobals, podEgressArgs]

/-- The named sets of an IPv4 spec are unqualified when the two set names are. -/
theorem v4_names_unqualified (pod node : String) (tail : List String)
    (hpod : ¬ inet6Qualified pod) (hnode : ¬ inet6Qualified node)
    (htail : matchSetNames ("-j" :: tail) = []) :
    ∀ t ∈ matchSetNames ("-m" :: "set" :: "--match-set" :: pod :: "src" ::
      "-m" :: "set" :: "!" :: "--match-set" :: pod :: "dst" ::
      "-m" :: "set" :: "!" :: "--match-set" :: node :: "dst" :: "-j" :: tail),
      ¬ inet6Qualified t := by
  intro t ht
  have key : t = pod ∨ t = node ∨ t = "src" ∨ t = "dst" := by
    simp only [matchSetNames] at ht htail
    simp at ht htail
    split_ifs at ht <;> simp [htail] at ht <;> tauto
  rcases key with h | h | h | h <;> subst h
  · exact hpod
  · exact hnode
  · decide
  · decide

/-- C1. Starting from the initial templates, for either family: with an
egress address `a` the derivation succeeds and the active spec is the 17
tokens of the three match clauses followed by exactly `-j SNAT --to a`, so
its first 18 tokens are those of the template, it has 21 tokens and none of
them is `MASQUERADE`; with no egress address the templates are unchanged and
the active spec is the match clauses followed by `-j MASQUERADE` and nothing
more.  The set names and the address text are assumed not to be the word
`MASQUERADE` themselves. -/
theorem C1_mode_switch (pod node a : String) (v6 : Bool)
    (hp : pod ≠ "MASQUERADE") (hn : node ≠ "MASQUERADE") (ha : a ≠ "MASQUERADE") :
    (∃ g, preparePodEgress ⟨v6, some a⟩ (initGlobals pod node) = some g ∧
      podEgressArgs ⟨v6, some a⟩ g =
        (podEgressArgs ⟨v6, some a⟩ (initGlobals pod node)).take 17 ++
          ["-j", "SNAT", "--to", a] ∧
      (podEgressArgs ⟨v6, some a⟩ g).take 18 =
        (podEgressArgs ⟨v6, some a⟩ (initGlobals pod node)).take 18 ∧
      (podEgressArgs ⟨v6, some a⟩ g).length = 21 ∧
      "MASQUERADE" ∉ podEgressArgs ⟨v6, some a⟩ g) ∧
    (preparePodEgress ⟨v6, none⟩ (initGlobals pod node) = some (initGlobals pod node) ∧
      podEgressArgs ⟨v6, none⟩ (initGlobals pod node) =
        (podEgressArgs ⟨v6, none⟩ (initGlobals pod node)).take 17 ++ ["-j", "MASQUERADE"] ∧
      (podEgressArgs ⟨v6, none⟩ (initGlobals pod node)).length = 19) := by
  refine ⟨?_, rfl, (initGlobals_template pod node _).2, (initGlobals_template pod node _).1⟩
  cases v6
  · refine ⟨_, rfl, ?_⟩
    simp [initGlobals, podEgressArgs]
    exact ⟨fun h => hp h.symm, fun h => hn h.symm, fun h => ha h.symm⟩
  · refine ⟨_, rfl, ?_⟩
    simp [initGlobals, podEgressArgs]
    exact ⟨fun h => inet6_append_ne_masquerade pod h.symm,
      fun h => inet6_append_ne_masquerade node h.symm, fun h => ha h.symm⟩

/-- C1 at the spec's scenario: IPv4, sets `pod-subnets` and `node-addrs`,
SNAT to `10.0.0.9`. -/
theorem C1_mode_switch_witness :
    (∃ g, preparePodEgress ⟨false, some "10.0.0.9"⟩ (initGlobals "pod-subnets" "node-addrs") =
        some g ∧
      podEgressArgs ⟨false, some "10.0.0.9"⟩ g =
        (podEgressArgs ⟨false, some "10.0.0.9"⟩
          (initGlobals "pod-subnets" "node-addrs")).take 17 ++
          ["-j", "SNAT", "--to", "10.0.0.9"] ∧
      (podEgressArgs ⟨false, some "10.0.0.9"⟩ g).take 18 =
        (podEgressArgs ⟨false, some "10.0.0.9"⟩
          (initGlobals "pod-subnets" "node-addrs")).take 18 ∧
      (podEgressArgs ⟨false, some "10.0.0.9"⟩ g).length = 21 ∧
      "MASQUERADE" ∉ podEgressArgs ⟨false, some "10.0.0.9"⟩ g) ∧
    (preparePodEgress ⟨false, none⟩ (initGlobals "pod-subnets" "node-addrs") =
        some (initGlobals "pod-subnets" "node-addrs") ∧
      podEgressArgs ⟨false, none⟩ (initGlobals "pod-subnets" "node-addrs") =
        (podEgressArgs ⟨false, none⟩ (initGlobals "pod-subnets" "node-addrs")).take 17 ++
          ["-j", "MASQUERADE"] ∧
      (podEgressArgs ⟨false, none⟩ (initGlobals "pod-subnets" "node-addrs")).length = 19) :=
  C1_mode_switch "pod-subnets" "node-addrs" "10.0.0.9" false
    (by decide) (by decide) (by decide)

/-- C2. From the initial templates and for every mode (no egress address, or
SNAT to any address): in the spec an IPv4 controller uses, and in every legacy
entry its sweep selects, no token that follows `--match-set` carries the
`inet6:` qualifier; in the spec an IPv6 controller uses, and in every legacy
entry its sweep selects, every token that follows `--match-set` carries it.
The two set names themselves are assumed not to start with `inet6:`. -/
theorem C2_family_isolation (pod node : String) (egress : Option String)
    (hpod : ¬ inet6Qualified pod) (hnode : ¬ inet6Qualified node) :
    (∃ g, preparePodEgress ⟨false, egress⟩ (initGlobals pod node) = some g ∧
      (∀ t ∈ matchSetNames (podEgressArgs ⟨false, egress⟩ g), ¬ inet6Qualified t) ∧
      (∀ r ∈ podEgressArgsBad ⟨false, egress⟩ g,
        ∀ t ∈ matchSetNames r, ¬ inet6Qualified t)) ∧
    (∃ g, preparePodEgress ⟨true, egress⟩ (initGlobals pod node) = some g ∧
      matchSetNames (podEgressArgs ⟨true, egress⟩ g) =
        ["inet6:" ++ pod, "inet6:" ++ pod, "inet6:" ++ node] ∧
      (∀ t ∈ matchSetNames (podEgressArgs ⟨true, egress⟩ g), inet6Qualified t) ∧
      (∀ r ∈ podEgressArgsBad ⟨true, egress⟩ g,
        matchSetNames r = ["inet6:" ++ pod, "inet6:" ++ pod] ∧
        ∀ t ∈ matchSetNames r, inet6Qualified t)) := by
  have hbad4 : ∀ t ∈ matchSetNames ["-m", "set", "--match-set", pod, "src",
      "-m", "set", "!", "--match-set", pod, "dst", "-j", "MASQUERADE"],
      ¬ inet6Qualified t := by
    intro t ht
    have key : t = pod ∨ t = "src" ∨ t = "dst" := by
      simp only [matchSetNames] at ht
      simp at ht
      split_ifs at ht <;> simp at ht <;> tauto
    rcases key with h | h | h <;> subst h
    · exact hpod
    · decide
    · decide
  constructor
  · cases egress with
    | none =>
      refine ⟨_, rfl, ?_, ?_⟩
      · exact v4_names_unqualified pod node _ hpod hnode (by simp [matchSetNames])
      · intro r hr
        simp [podEgressArgsBad, initGlobals] at hr
        subst hr
        exact hbad4
    | some a =>
      refine ⟨_, rfl, ?_, ?_⟩
      · exact v4_names_unqualified pod node _ hpod hnode (by simp [matchSetNames])
      · intro r hr
        simp [podEgressArgsBad, initGlobals] at hr
        subst hr
        exact hbad4
  · cases egress with
    | none =>
      refine ⟨_, rfl, ?_, ?_, ?_⟩
      · simp [podEgressArgs, initGlobals, matchSetNames, inet6_append_ne_matchSet]
      · simp [podEgressArgs, initGlobals, matchSetNames, inet6_append_ne_matchSet,
          inet6Qualified_append]
      · intro r hr
        simp [podEgressArgsBad, initGlobals] at hr
        subst hr
        simp [matchSetNames, inet6_append_ne_matchSet, inet6Qualified_append]
    | some a =>
      refine ⟨_, rfl, ?_, ?_, ?_⟩
      · simp [podEgressArgs, matchSetNames, inet6_append_ne_matchSet]
      · simp [podEgressArgs, matchSetNames, inet6_append_ne_matchSet,
          inet6Qualified_append]
      · intro r hr
        simp [podEgressArgsBad, initGlobals] at hr
        subst hr
        simp [matchSetNames, inet6_append_ne_matchSet, inet6Qualified_append]

/-- C2 at the sets `pod-subnets` and `node-addrs` with SNAT to `10.0.0.9`. -/
theorem C2_family_isolation_witness :
    (∃ g, preparePodEgress ⟨false, some "10.0.0.9"⟩ (initGlobals "pod-subnets" "node-addrs") =
        some g ∧
      (∀ t ∈ matchSetNames (podEgressArgs ⟨false, some "10.0.0.9"⟩ g), ¬ inet6Qualified t) ∧
      (∀ r ∈ podEgressArgsBad ⟨false, some "10.0.0.9"⟩ g,
        ∀ t ∈ matchSetNames r, ¬ inet6Qualified t)) ∧
    (∃ g, preparePodEgress ⟨true, some "10.0.0.9"⟩ (initGlobals "pod-subnets" "node-addrs") =
        some g ∧
      matchSetNames (podEgressArgs ⟨true, some "10.0.0.9"⟩ g) =
        ["inet6:" ++ "pod-subnets", "inet6:" ++ "pod-subnets", "inet6:" ++ "node-addrs"] ∧
      (∀ t ∈ matchSetNames (podEgressArgs ⟨true, some "10.0.0.9"⟩ g), inet6Qualified t) ∧
      (∀ r ∈ podEgressArgsBad ⟨true, some "10.0.0.9"⟩ g,
        matchSetNames r = ["inet6:" ++ "pod-subnets", "inet6:" ++ "pod-subnets"] ∧
        ∀ t ∈ matchSetNames r, inet6Qualified t)) :=
  C2_family_isolation "pod-subnets" "node-addrs" (some "10.0.0.9") (by decide) (by decide)

/-- From the initial templates, a second derivation with the same egress
address drops the address token and appends the three SNAT tokens again. -/
theorem prepare_twice_snat (pod node a : String) (v6 : Bool) :
    ((preparePodEgress ⟨v6, some a⟩ (initGlobals pod node)).bind
        (preparePodEgress ⟨v6, some a⟩)).map (podEgressArgs ⟨v6, some a⟩) =
      some ((podEgressArgs ⟨v6, some a⟩ (initGlobals pod node)).take 17 ++
        ["-j", "SNAT", "--to", "SNAT", "--to", a]) := by
  cases v6 <;> simp [preparePodEgress, initGlobals, podEgressArgs]

/-- A derivation with no egress address changes nothing, however often it is
repeated. -/
theorem prepare_masquerade_id (v6 : Bool) (g : Globals) :
    preparePodEgress ⟨v6, none⟩ g = some g := rfl

/-- C3. Deriving twice is not deriving once: on an IPv4 controller with egress
address `10.0.0.9`, the first `preparePodEgress` from the initial templates
leaves a spec ending in `-j SNAT --to 10.0.0.9`, and a second call with the
same configuration drops the address as though it were `MASQUERADE` and
leaves a spec ending in `-j SNAT --to SNAT --to 10.0.0.9`. -/
theorem C3_second_derivation_differs :
    (preparePodEgress ⟨false, some "10.0.0.9"⟩ (initGlobals "pod-subnets" "node-addrs")).map
        (podEgressArgs ⟨false, some "10.0.0.9"⟩) =
      some ["-m", "set", "--match-set", "pod-subnets", "src",
        "-m", "set", "!", "--match-set", "pod-subnets", "dst",
        "-m", "set", "!", "--match-set", "node-addrs", "dst",
        "-j", "SNAT", "--to", "10.0.0.9"] ∧
    ((preparePodEgress ⟨false, some "10.0.0.9"⟩ (initGlobals "pod-subnets" "node-addrs")).bind
        (preparePodEgress ⟨false, some "10.0.0.9"⟩)).map
        (podEgressArgs ⟨false, some "10.0.0.9"⟩) =
      some ["-m", "set", "--match-set", "pod-subnets", "src",
        "-m", "set", "!", "--match-set", "pod-subnets", "dst",
        "-m", "set", "!", "--match-set", "node-addrs", "dst",
        "-j", "SNAT", "--to", "SNAT", "--to", "10.0.0.9"] ∧
    (preparePodEgress ⟨false, some "10.0.0.9"⟩ (initGlobals "pod-subnets" "node-addrs")).bind
        (preparePodEgress ⟨false, some "10.0.0.9"⟩) ≠
      preparePodEgress ⟨false, some "10.0.0.9"⟩ (initGlobals "pod-subnets" "node-addrs") := by
  refine ⟨by simp [preparePodEgress, initGlobals, podEgressArgs],
    by simp [preparePodEgress, initGlobals, podEgressArgs],
    by simp [preparePodEgress, initGlobals]⟩

/-! ## Create and delete of the current rule -/

/-- C4. With `AppendUnique` adding the rule only when no exact match is
present: from a chain that holds no rule equal to the active spec, of two
successive successful `createPodEgressRule` calls with unchanged configuration
the first appends the spec at the end and the second leaves the chain exactly
as the first left it, so the chain holds exactly one rule equal to the active
spec and an existence check answers true. -/
theorem C4_idempotent_create (nrc : NetworkRoutingController) (g : Globals)
    (h : IptablesCmdHandler) (w : Iptables)
    (habs : podEgressArgs nrc g ∉ w.chain)
    (h1 : (createPodEgressRule nrc g h w).1 = none)
    (h2 : (createPodEgressRule nrc g h (createPodEgressRule nrc g h w).2).1 = none) :
    (createPodEgressRule nrc g h w).2.chain = w.chain ++ [podEgressArgs nrc g] ∧
    (createPodEgressRule nrc g h (createPodEgressRule nrc g h w).2).2.chain =
      (createPodEgressRule nrc g h w).2.chain ∧
    (createPodEgressRule nrc g h (createPodEgressRule nrc g h w).2).2.chain.count
      (podEgressArgs nrc g) = 1 ∧
    (healthy.Exists (createPodEgressRule nrc g h (createPodEgressRule nrc g h w).2).2
      (podEgressArgs nrc g)).1 = (true, none) := by
  have e1 : (createPodEgressRule nrc g h w).2.chain = w.chain ++ [podEgressArgs nrc g] := by
    unfold createPodEgressRule IptablesCmdHandler.AppendUnique at h1 ⊢
    cases hn : h.newIptablesCmdHandler w with
    | some e => simp [hn] at h1
    | none =>
      cases ha : h.appendUniqueErr w (podEgressArgs nrc g) with
      | some e => simp [hn, ha] at h1
      | none => simp [hn, ha, habs]
  have e2 : (createPodEgressRule nrc g h (createPodEgressRule nrc g h w).2).2.chain =
      (createPodEgressRule nrc g h w).2.chain := by
    have hin : podEgressArgs nrc g ∈ (createPodEgressRule nrc g h w).2.chain := by
      rw [e1]; simp
    generalize (createPodEgressRule nrc g h w).2 = w1 at h2 hin ⊢
    unfold createPodEgressRule IptablesCmdHandler.AppendUnique at h2 ⊢
    cases hn : h.newIptablesCmdHandler w1 with
    | some e => simp [hn] at h2
    | none =>
      cases ha : h.appendUniqueErr w1 (podEgressArgs nrc g) with
      | some e => simp [hn, ha] at h2
      | none => simp [hn, ha, hin]
  have hc : (w.chain ++ [podEgressArgs nrc g]).count (podEgressArgs nrc g) = 1 := by
    rw [List.count_append, List.count_eq_zero_of_not_mem habs]
    simp
  refine ⟨e1, e2, ?_, ?_⟩
  · rw [e2, e1]; exact hc
  · simp [IptablesCmdHandler.Exists, healthy, e2, e1]

/-- C4 on the scenario: IPv4, masquerade, a chain with one unrelated rule. -/
theorem C4_idempotent_create_witness :
    (createPodEgressRule ⟨false, none⟩ scenarioGlobals healthy
      (createPodEgressRule ⟨false, none⟩ scenarioGlobals healthy scenarioTable).2).2.chain.count
      (podEgressArgs ⟨false, none⟩ scenarioGlobals) = 1 :=
  (C4_idempotent_create ⟨false, none⟩ scenarioGlobals healthy scenarioTable
    (by decide) (by decide) (by decide)).2.2.1

/-- C5. When no rule of the chain equals the active spec, the handle is
acquired and the existence check succeeds, `deletePodEgressRule` returns nil,
leaves the chain unchanged and issues the existence check only: no `Delete`
reaches the handle, whatever the handle would answer to one. -/
theorem C5_idempotent_delete (nrc : NetworkRoutingController) (g : Globals)
    (h : IptablesCmdHandler) (w : Iptables)
    (habs : podEgressArgs nrc g ∉ w.chain)
    (hh : h.newIptablesCmdHandler w = none)
    (he : h.existsErr w (podEgressArgs nrc g) = none) :
    (deletePodEgressRule nrc g h w).1 = none ∧
    (deletePodEgressRule nrc g h w).2.chain = w.chain ∧
    (deletePodEgressRule nrc g h w).2.calls = w.calls ++ [Call.check (podEgressArgs nrc g)] ∧
    ∀ rule, Call.delete rule ∉ (deletePodEgressRule nrc g h w).2.calls.drop w.calls.length := by
  simp [deletePodEgressRule, IptablesCmdHandler.Exists, hh, he, habs]

/-- C5 on the scenario, with a handle whose `Delete` of the absent rule
would fail. -/
theorem C5_idempotent_delete_witness :
    (deletePodEgressRule ⟨false, none⟩ scenarioGlobals strictDelete scenarioTable).1 = none ∧
    (strictDelete.Delete scenarioTable (podEgressArgs ⟨false, none⟩ scenarioGlobals)).1 ≠ none :=
  ⟨(C5_idempotent_delete ⟨false, none⟩ scenarioGlobals strictDelete scenarioTable
    (by decide) rfl rfl).1, by decide⟩

/-- C8. `deletePodEgressRule` issues a `Delete` against the handle exactly
when the handle was acquired and `Exists` answered true without error; when
`Exists` fails it returns an error and the chain is unchanged; when the handle
cannot be acquired it returns an error and issues no call at all. -/
theorem C8_existence_gated_delete (nrc : NetworkRoutingController) (g : Globals)
    (h : IptablesCmdHandler) (w : Iptables) :
    ((∃ rule, Call.delete rule ∈ (deletePodEgressRule nrc g h w).2.calls.drop w.calls.length) ↔
      (h.newIptablesCmdHandler w = none ∧
        (h.Exists w (podEgressArgs nrc g)).1 = (true, none))) ∧
    (h.newIptablesCmdHandler w = none → (h.Exists w (podEgressArgs nrc g)).1.2 ≠ none →
      (deletePodEgressRule nrc g h w).1 ≠ none ∧
      (deletePodEgressRule nrc g h w).2.chain = w.chain) ∧
    (h.newIptablesCmdHandler w ≠ none →
      (deletePodEgressRule nrc g h w).1 ≠ none ∧ (deletePodEgressRule nrc g h w).2 = w) := by
  unfold deletePodEgressRule IptablesCmdHandler.Exists IptablesCmdHandler.Delete
  cases hn : h.newIptablesCmdHandler w with
  | some e => simp
  | none =>
    cases he : h.existsErr w (podEgressArgs nrc g) with
    | some e => simp
    | none =>
      by_cases hin : podEgressArgs nrc g ∈ w.chain
      · cases hd : h.deleteErr
          { chain := w.chain, calls := w.calls ++ [Call.check (podEgressArgs nrc g)] }
          (podEgressArgs nrc g) <;> simp [hin, hd]
      · simp [hin]

/-- C8 on the scenario with a failing existence check: an error, and the
chain is as before. -/
theorem C8_existence_gated_delete_witness :
    (deletePodEgressRule ⟨false, none⟩ scenarioGlobals lookupFails scenarioTable).1 ≠ none ∧
    (deletePodEgressRule ⟨false, none⟩ scenarioGlobals lookupFails scenarioTable).2.chain =
      scenarioTable.chain :=
  (C8_existence_gated_delete ⟨false, none⟩ scenarioGlobals lookupFails scenarioTable).2.1
    rfl (by decide)

theorem data_mid_contained (p e q : String) : e.data <:+: (p ++ e ++ q).data :=
  ⟨p.data, q.data, by simp⟩

theorem data_end_contained (p q : String) : q.data <:+: (p ++ q).data :=
  ⟨p.data, [], by simp⟩

/-- C9. `createPodEgressRule` returns an error exactly when the handle
cannot be acquired or `AppendUnique` fails; when `AppendUnique` fails the
message is the install-failure text, which contains the underlying error text
and the warning `External connectivity will not work.`; when both succeed it
returns nil. -/
theorem C9_install_failure_surfaced (nrc : NetworkRoutingController) (g : Globals)
    (h : IptablesCmdHandler) (w : Iptables) :
    ((createPodEgressRule nrc g h w).1 ≠ none ↔
      (h.newIptablesCmdHandler w ≠ none ∨
        (h.AppendUnique w (podEgressArgs nrc g)).1 ≠ none)) ∧
    (∀ e, h.newIptablesCmdHandler w = none →
      (h.AppendUnique w (podEgressArgs nrc g)).1 = some e →
      (createPodEgressRule nrc g h w).1 =
        some ("Failed to add iptable rule for outbound traffic from pods: " ++ e ++
          "External connectivity will not work.") ∧
      ∃ msg, (createPodEgressRule nrc g h w).1 = some msg ∧ e.data <:+: msg.data ∧
        "External connectivity will not work.".data <:+: msg.data) ∧
    (h.newIptablesCmdHandler w = none →
      (h.AppendUnique w (podEgressArgs nrc g)).1 = none →
      (createPodEgressRule nrc g h w).1 = none) := by
  unfold createPodEgressRule
  cases hn : h.newIptablesCmdHandler w with
  | some e => simp
  | none =>
    rcases hr : h.AppendUnique w (podEgressArgs nrc g) with ⟨err, w1⟩
    cases err with
    | none => simp
    | some e =>
      refine ⟨by simp, ?_, by simp⟩
      intro e2 _ he2
      have hee : e = e2 := by simpa using he2
      subst hee
      exact ⟨rfl, _, rfl, data_mid_contained _ _ _, data_end_contained _ _⟩

/-- C9 on the scenario with a failing `AppendUnique`: the message returned. -/
theorem C9_install_failure_surfaced_witness :
    (createPodEgressRule ⟨false, none⟩ scenarioGlobals appendFails scenarioTable).1 =
      some ("Failed to add iptable rule for outbound traffic from pods: " ++
        "exit status 4: xtables lock held. " ++ "External connectivity will not work.") :=
  ((C9_install_failure_surfaced ⟨false, none⟩ scenarioGlobals appendFails scenarioTable).2.1
    "exit status 4: xtables lock held. " rfl rfl).1

/-! ## The legacy sweep -/

/-- One turn of the sweep whose existence check fails: the sweep ends there. -/
theorem loop_cons_lookup_fails (h : IptablesCmdHandler) (e : Rule) (rest : List Rule)
    (w : Iptables) (err : String) (he : h.existsErr w e = some err) :
    deleteBadPodEgressRulesLoop h (e :: rest) w =
      (some ("Failed to lookup iptables rule: " ++ err),
        ⟨w.chain, w.calls ++ [Call.check e]⟩) := by
  simp [deleteBadPodEgressRulesLoop, IptablesCmdHandler.Exists, he]

/-- One turn of the sweep on an absent entry: only the check is issued. -/
theorem loop_cons_absent (h : IptablesCmdHandler) (e : Rule) (rest : List Rule)
    (w : Iptables) (he : h.existsErr w e = none) (hin : e ∉ w.chain) :
    deleteBadPodEgressRulesLoop h (e :: rest) w =
      deleteBadPodEgressRulesLoop h rest ⟨w.chain, w.calls ++ [Call.check e]⟩ := by
  simp [deleteBadPodEgressRulesLoop, IptablesCmdHandler.Exists, he, hin]

/-- One turn of the sweep whose delete fails: the sweep ends there. -/
theorem loop_cons_delete_fails (h : IptablesCmdHandler) (e : Rule) (rest : List Rule)
    (w : Iptables) (err : String) (he : h.existsErr w e = none) (hin : e ∈ w.chain)
    (hd : h.deleteErr ⟨w.chain, w.calls ++ [Call.check e]⟩ e = some err) :
    deleteBadPodEgressRulesLoop h (e :: rest) w =
      (some ("Failed to delete old/bad iptable rule to " ++
          "masqurade outbound traffic from pods: " ++ err ++ ".\n" ++
          "Pod egress might still work, or bugs may persist after upgrade..."),
        ⟨w.chain, w.calls ++ [Call.check e] ++ [Call.delete e]⟩) := by
  simp [deleteBadPodEgressRulesLoop, IptablesCmdHandler.Exists, IptablesCmdHandler.Delete,
    he, hin, hd]

/-- One turn of the sweep on a present entry whose delete succeeds. -/
theorem loop_cons_deleted (h : IptablesCmdHandler) (e : Rule) (rest : List Rule)
    (w : Iptables) (he : h.existsErr w e = none) (hin : e ∈ w.chain)
    (hd : h.deleteErr ⟨w.chain, w.calls ++ [Call.check e]⟩ e = none) :
    deleteBadPodEgressRulesLoop h (e :: rest) w =
      deleteBadPodEgressRulesLoop h rest
        ⟨w.chain.erase e, w.calls ++ [Call.check e] ++ [Call.delete e]⟩ := by
  simp [deleteBadPodEgressRulesLoop, IptablesCmdHandler.Exists, IptablesCmdHandler.Delete,
    he, hin, hd]

/-- The sweep only removes rules. -/
theorem loop_chain_sublist (h : IptablesCmdHandler) (cat : List Rule) :
    ∀ w : Iptables, List.Sublist (deleteBadPodEgressRulesLoop h cat w).2.chain w.chain := by
  induction cat with
  | nil => intro w; simp [deleteBadPodEgressRulesLoop]
  | cons e rest ih =>
    intro w
    cases he : h.existsErr w e with
    | some err => rw [loop_cons_lookup_fails h e rest w err he]
    | none =>
      by_cases hin : e ∈ w.chain
      · cases hd : h.deleteErr ⟨w.chain, w.calls ++ [Call.check e]⟩ e with
        | some err => rw [loop_cons_delete_fails h e rest w err he hin hd]
        | none =>
          rw [loop_cons_deleted h e rest w he hin hd]
          exact (ih _).trans (List.erase_sublist e w.chain)
      · rw [loop_cons_absent h e rest w he hin]
        exact ih _

/-- A successful sweep leaves no entry of the catalog in a chain that held at
most one copy of each. -/
theorem loop_success_absent (h : IptablesCmdHandler) (cat : List Rule) :
    ∀ w : Iptables, (∀ b ∈ cat, w.chain.count b ≤ 1) →
      (deleteBadPodEgressRulesLoop h cat w).1 = none →
      ∀ b ∈ cat, b ∉ (deleteBadPodEgressRulesLoop h cat w).2.chain := by
  induction cat with
  | nil => intro w _ _ b hb; simp at hb
  | cons e rest ih =>
    intro w hone hok
    have hrest : ∀ w2 : Iptables, List.Sublist w2.chain w.chain →
        ∀ b ∈ rest, w2.chain.count b ≤ 1 :=
      fun w2 hs b hb => (hs.count_le b).trans (hone b (List.mem_cons_of_mem _ hb))
    cases he : h.existsErr w e with
    | some err => rw [loop_cons_lookup_fails h e rest w err he] at hok; simp at hok
    | none =>
      by_cases hin : e ∈ w.chain
      · cases hd : h.deleteErr ⟨w.chain, w.calls ++ [Call.check e]⟩ e with
        | some err => rw [loop_cons_delete_fails h e rest w err he hin hd] at hok; simp at hok
        | none =>
          rw [loop_cons_deleted h e rest w he hin hd] at hok ⊢
          have hgone : e ∉ w.chain.erase e := by
            have hc : (w.chain.erase e).count e = 0 := by
              rw [List.count_erase_self]
              have := hone e (List.mem_cons_self _ _)
              omega
            exact List.count_eq_zero.mp hc
          intro b hb
          rcases List.mem_cons.mp hb with hbe | hbr
          · subst hbe
            exact fun hmem => hgone ((loop_chain_sublist h rest _).subset hmem)
          · exact ih _ (hrest _ (List.erase_sublist e w.chain)) hok b hbr
      · rw [loop_cons_absent h e rest w he hin] at hok ⊢
        intro b hb
        rcases List.mem_cons.mp hb with hbe | hbr
        · subst hbe
          exact fun hmem => hin ((loop_chain_sublist h rest
            ⟨w.chain, w.calls ++ [Call.check b]⟩).subset hmem)
        · exact ih ⟨w.chain, w.calls ++ [Call.check e]⟩
            (hrest ⟨w.chain, w.calls ++ [Call.check e]⟩ (List.Sublist.refl _)) hok b hbr

/-- With a handle that never fails the sweep succeeds and erases one copy of
each entry in turn. -/
theorem loop_no_failures (h : IptablesCmdHandler) (hh : NoFailures h) (cat : List Rule) :
    ∀ w : Iptables, (deleteBadPodEgressRulesLoop h cat w).1 = none ∧
      (deleteBadPodEgressRulesLoop h cat w).2.chain = cat.foldl List.erase w.chain := by
  induction cat with
  | nil => intro w; simp [deleteBadPodEgressRulesLoop]
  | cons e rest ih =>
    intro w
    by_cases hin : e ∈ w.chain
    · rw [loop_cons_deleted h e rest w (hh _ _).2.2.1 hin (hh _ _).2.2.2]
      exact ih _
    · rw [loop_cons_absent h e rest w (hh _ _).2.2.1 hin, List.foldl_cons,
        List.erase_of_not_mem hin]
      exact ih _

/-- A sweep over `pre ++ post` whose `pre` part succeeds continues with
`post` from the state `pre` left. -/
theorem loop_append (h : IptablesCmdHandler) (pre post : List Rule) :
    ∀ w : Iptables, (deleteBadPodEgressRulesLoop h pre w).1 = none →
      deleteBadPodEgressRulesLoop h (pre ++ post) w =
        deleteBadPodEgressRulesLoop h post (deleteBadPodEgressRulesLoop h pre w).2 := by
  induction pre with
  | nil => intro w _; simp [deleteBadPodEgressRulesLoop]
  | cons e rest ih =>
    intro w hok
    rw [List.cons_append]
    cases he : h.existsErr w e with
    | some err => rw [loop_cons_lookup_fails h e rest w err he] at hok; simp at hok
    | none =>
      by_cases hin : e ∈ w.chain
      · cases hd : h.deleteErr ⟨w.chain, w.calls ++ [Call.check e]⟩ e with
        | some err => rw [loop_cons_delete_fails h e rest w err he hin hd] at hok; simp at hok
        | none =>
          rw [loop_cons_deleted h e rest w he hin hd] at hok
          rw [loop_cons_deleted h e (rest ++ post) w he hin hd,
            loop_cons_deleted h e rest w he hin hd]
          exact ih _ hok
      · rw [loop_cons_absent h e rest w he hin] at hok
        rw [loop_cons_absent h e (rest ++ post) w he hin, loop_cons_absent h e rest w he hin]
        exact ih _ hok

/-- The fault-free plan never fails. -/
theorem healthy_no_failures : NoFailures healthy := fun _ _ => ⟨rfl, rfl, rfl, rfl⟩

/-- With a handle that never fails, create succeeds and appends the spec
only when it is absent. -/
theorem create_no_failures (nrc : NetworkRoutingController) (g : Globals)
    (h : IptablesCmdHandler) (hh : NoFailures h) (w : Iptables) :
    (createPodEgressRule nrc g h w).1 = none ∧
    (createPodEgressRule nrc g h w).2.chain =
      if podEgressArgs nrc g ∈ w.chain then w.chain else w.chain ++ [podEgressArgs nrc g] := by
  unfold createPodEgressRule IptablesCmdHandler.AppendUnique
  rw [(hh w (podEgressArgs nrc g)).1, (hh w (podEgressArgs nrc g)).2.1]
  by_cases hin : podEgressArgs nrc g ∈ w.chain <;> simp [hin]

/-- After a derivation from the initial templates the family's legacy catalog
is its single initial entry, and that entry is not the active spec. -/
theorem prepared_catalog (pod node : String) (nrc : NetworkRoutingController) (g : Globals)
    (hg : preparePodEgress nrc (initGlobals pod node) = some g) :
    podEgressArgsBad nrc g = podEgressArgsBad nrc (initGlobals pod node) ∧
    ∃ b, podEgressArgsBad nrc g = [b] ∧ podEgressArgs nrc g ≠ b := by
  rcases nrc with ⟨v6, egress⟩
  have hlen : ∀ (x y : List String), x.length ≠ y.length → x ≠ y :=
    fun x y hxy hEq => hxy (congrArg List.length hEq)
  cases v6 <;> cases egress <;>
    simp only [preparePodEgress, initGlobals, Option.some.injEq] at hg <;>
    (try simp at hg) <;> subst hg <;>
    exact ⟨rfl, _, rfl, hlen _ _ (by simp [podEgressArgs])⟩

/-- Erasing a rule does not depend on which of the two equality tests on token
lists is used. -/
theorem erase_beq_irrel (l : List Rule) (b : Rule) :
    l.erase b = @List.erase Rule instBEqOfDecidableEq l b := by
  induction l with
  | nil => rfl
  | cons a t ih =>
    by_cases hab : a = b
    · subst hab; simp
    · have h1 : ¬ ((a == b) = true) := by simpa using hab
      have h2 : ¬ ((@BEq.beq Rule instBEqOfDecidableEq a b) = true) := by simpa using hab
      rw [List.erase_cons_tail h1, @List.erase_cons_tail _ instBEqOfDecidableEq _ _ _ h2, ih]

/-- C6. For either family and either mode (the globals are those a derivation
from the initial templates leaves): if the chain holds, in any order, one copy
of every legacy entry of the family and one copy of the current spec, then
with a handle that never fails `createPodEgressRule` followed by
`deleteBadPodEgressRules` both succeed and leave a chain that is exactly the
current spec, once, with no legacy entry. -/
theorem C6_legacy_migration (pod node : String) (nrc : NetworkRoutingController)
    (g : Globals) (h : IptablesCmdHandler) (w : Iptables)
    (hg : preparePodEgress nrc (initGlobals pod node) = some g)
    (hh : NoFailures h)
    (hperm : List.Perm w.chain (podEgressArgs nrc g :: podEgressArgsBad nrc g)) :
    (createPodEgressRule nrc g h w).1 = none ∧
    (deleteBadPodEgressRules nrc g h (createPodEgressRule nrc g h w).2).1 = none ∧
    (deleteBadPodEgressRules nrc g h (createPodEgressRule nrc g h w).2).2.chain =
      [podEgressArgs nrc g] := by
  obtain ⟨_, b, hb, hne⟩ := prepared_catalog pod node nrc g hg
  have hin : podEgressArgs nrc g ∈ w.chain := hperm.symm.subset (List.mem_cons_self _ _)
  have hc := create_no_failures nrc g h hh w
  rw [if_pos hin] at hc
  have hl := loop_no_failures h hh (podEgressArgsBad nrc g) (createPodEgressRule nrc g h w).2
  refine ⟨hc.1, ?_, ?_⟩
  · unfold deleteBadPodEgressRules
    rw [(hh _ []).1]
    exact hl.1
  · unfold deleteBadPodEgressRules
    rw [(hh _ []).1]
    show (deleteBadPodEgressRulesLoop h _ _).2.chain = _
    rw [hl.2, hc.2, hb]
    have hp : List.Perm (w.chain.erase b) ((podEgressArgs nrc g :: [b]).erase b) := by
      rw [hb] at hperm
      rw [erase_beq_irrel, erase_beq_irrel]
      exact hperm.erase b
    have he : (podEgressArgs nrc g :: [b]).erase b = [podEgressArgs nrc g] := by
      rw [List.erase_cons_tail (by simpa using hne)]
      simp
    rw [he] at hp
    simpa using hp

/-- C6 on the scenario: IPv4, masquerade, the legacy entry ahead of the
current spec. -/
theorem C6_legacy_migration_witness :
    (deleteBadPodEgressRules ⟨false, none⟩ scenarioGlobals healthy
      (createPodEgressRule ⟨false, none⟩ scenarioGlobals healthy migrationTable).2).2.chain =
      [podEgressArgs ⟨false, none⟩ scenarioGlobals] :=
  (C6_legacy_migration "pod-subnets" "node-addrs" ⟨false, none⟩ scenarioGlobals healthy
    migrationTable rfl healthy_no_failures (List.Perm.swap _ _ _)).2.2

/-- C10 as stated fails: on a chain with two copies of the IPv4 legacy entry
the sweep succeeds, having deleted one copy, and the entry is still in the
chain, where an existence check finds it. -/
theorem C10_duplicate_legacy_survives :
    (deleteBadPodEgressRules ⟨false, none⟩ scenarioGlobals healthy duplicateLegacyTable).1 = none ∧
    ∃ b ∈ podEgressArgsBad ⟨false, none⟩ scenarioGlobals,
      b ∈ (deleteBadPodEgressRules ⟨false, none⟩ scenarioGlobals healthy
        duplicateLegacyTable).2.chain ∧
      (healthy.Exists (deleteBadPodEgressRules ⟨false, none⟩ scenarioGlobals healthy
        duplicateLegacyTable).2 b).1 = (true, none) := by
  decide

/-- C10, amended. For every family and mode (any globals), any handle and any
chain that holds at most one copy of each legacy entry of the family: whenever
`deleteBadPodEgressRules` returns success, no rule equal to a legacy entry of
that family remains in the chain, and an existence check answers false for
each of them. -/
theorem C10_sweep_clears_single_copies (nrc : NetworkRoutingController) (g : Globals)
    (h : IptablesCmdHandler) (w : Iptables)
    (hone : ∀ b ∈ podEgressArgsBad nrc g, w.chain.count b ≤ 1)
    (hok : (deleteBadPodEgressRules nrc g h w).1 = none) :
    ∀ b ∈ podEgressArgsBad nrc g,
      b ∉ (deleteBadPodEgressRules nrc g h w).2.chain ∧
      (healthy.Exists (deleteBadPodEgressRules nrc g h w).2 b).1 = (false, none) := by
  unfold deleteBadPodEgressRules at hok ⊢
  cases hn : h.newIptablesCmdHandler w with
  | some e => simp [hn] at hok
  | none =>
    simp only [hn] at hok ⊢
    intro b hb
    have := loop_success_absent h _ w hone hok b hb
    exact ⟨this, by simp [IptablesCmdHandler.Exists, healthy, this]⟩

/-- C10 amended, on the scenario: a chain with the legacy entry and the
current spec. -/
theorem C10_sweep_clears_single_copies_witness :
    legacyA ∉ (deleteBadPodEgressRules ⟨false, none⟩ scenarioGlobals healthy
        migrationTable).2.chain ∧
      (healthy.Exists (deleteBadPodEgressRules ⟨false, none⟩ scenarioGlobals healthy
        migrationTable).2 legacyA).1 = (false, none) :=
  C10_sweep_clears_single_copies ⟨false, none⟩ scenarioGlobals healthy migrationTable
    (by decide) (by decide) legacyA (by decide)

/-- C7 as stated fails: with a catalog of two entries, both in the chain,
and a handle whose delete of the first entry fails, the sweep returns an error
and the second entry is still in the chain, never checked and never deleted. -/
theorem C7_failure_aborts_sweep :
    podEgressArgsBad ⟨false, none⟩ twoLegacyGlobals = [legacyA, legacyB] ∧
    (deleteBadPodEgressRules ⟨false, none⟩ twoLegacyGlobals (deleteFailsOn legacyA)
      twoLegacyTable).1 ≠ none ∧
    legacyB ∈ (deleteBadPodEgressRules ⟨false, none⟩ twoLegacyGlobals (deleteFailsOn legacyA)
      twoLegacyTable).2.chain ∧
    Call.check legacyB ∉ (deleteBadPodEgressRules ⟨false, none⟩ twoLegacyGlobals
      (deleteFailsOn legacyA) twoLegacyTable).2.calls ∧
    Call.delete legacyB ∉ (deleteBadPodEgressRules ⟨false, none⟩ twoLegacyGlobals
      (deleteFailsOn legacyA) twoLegacyTable).2.calls := by
  decide

/-- C7, amended. In `deleteBadPodEgressRules` the sweep stops at the first
entry that fails: when the entries `pre` ahead of `e` were processed without
failure, leaving the state `w1`, and the existence check of `e` fails, or it
answers true and the delete of `e` fails, the function returns an error, the
chain is as `pre` left it, and the only calls issued after `pre` are the check
of `e` and, in the second case, its delete: no entry after `e` is checked or
deleted. -/
theorem C7_sweep_stops_at_first_failure (nrc : NetworkRoutingController) (g : Globals)
    (h : IptablesCmdHandler) (w w1 : Iptables) (pre post : List Rule) (e : Rule)
    (hcat : podEgressArgsBad nrc g = pre ++ e :: post)
    (hh : h.newIptablesCmdHandler w = none)
    (hpre : deleteBadPodEgressRulesLoop h pre w = (none, w1))
    (hfail : (h.Exists w1 e).1.2 ≠ none ∨
      ((h.Exists w1 e).1 = (true, none) ∧ (h.Delete (h.Exists w1 e).2 e).1 ≠ none)) :
    (deleteBadPodEgressRules nrc g h w).1 ≠ none ∧
    (deleteBadPodEgressRules nrc g h w).2.chain = w1.chain ∧
    ((deleteBadPodEgressRules nrc g h w).2.calls = w1.calls ++ [Call.check e] ∨
      (deleteBadPodEgressRules nrc g h w).2.calls =
        w1.calls ++ [Call.check e, Call.delete e]) := by
  unfold deleteBadPodEgressRules
  simp only [hh, hcat]
  rw [loop_append h pre (e :: post) w (by rw [hpre]), hpre]
  show (deleteBadPodEgressRulesLoop h (e :: post) w1).1 ≠ none ∧ _
  cases he : h.existsErr w1 e with
  | some err =>
    rw [loop_cons_lookup_fails h e post w1 err he]
    simp
  | none =>
    rcases hfail with hf | ⟨hx, hd⟩
    · simp [IptablesCmdHandler.Exists, he] at hf
    · have hin : e ∈ w1.chain := by
        simpa [IptablesCmdHandler.Exists, he] using hx
      cases hde : h.deleteErr ⟨w1.chain, w1.calls ++ [Call.check e]⟩ e with
      | none => simp [IptablesCmdHandler.Exists, IptablesCmdHandler.Delete, he, hde] at hd
      | some err =>
        rw [loop_cons_delete_fails h e post w1 err he hin hde]
        simp

/-- C7 amended, on the two-entry catalog with a failing delete of the first
entry. -/
theorem C7_sweep_stops_at_first_failure_witness :
    (deleteBadPodEgressRules ⟨false, none⟩ twoLegacyGlobals (deleteFailsOn legacyA)
      twoLegacyTable).2.chain = twoLegacyTable.chain :=
  (C7_sweep_stops_at_first_failure ⟨false, none⟩ twoLegacyGlobals (deleteFailsOn legacyA)
    twoLegacyTable twoLegacyTable [] [legacyB] legacyA
    rfl rfl rfl (Or.inr ⟨by decide, by decide⟩)).2.1

/-! ## Frame properties -/

/-- Erasing a rule that a filter rejects does not change what the filter
keeps. -/
theorem filter_erase_rejected (p : Rule → Bool) (e : Rule) (hp : p e = false) :
    ∀ l : List Rule, (l.erase e).filter p = l.filter p := by
  intro l
  induction l with
  | nil => rfl
  | cons a t ih =>
    by_cases hae : a = e
    · subst hae
      rw [List.erase_cons_head, List.filter_cons_of_neg (by simp [hp])]
    · rw [List.erase_cons_tail (by simpa using hae), List.filter_cons, List.filter_cons, ih]

/-- The sweep keeps every rule that is not an entry of the catalog, in the
same order, whatever the handle answers. -/
theorem loop_keeps_others (h : IptablesCmdHandler) (keep : Rule → Bool) (cat : List Rule)
    (hk : ∀ b ∈ cat, keep b = false) :
    ∀ w : Iptables,
      (deleteBadPodEgressRulesLoop h cat w).2.chain.filter keep = w.chain.filter keep := by
  induction cat with
  | nil => intro w; simp [deleteBadPodEgressRulesLoop]
  | cons e rest ih =>
    intro w
    have hrest : ∀ b ∈ rest, keep b = false := fun b hb => hk b (List.mem_cons_of_mem _ hb)
    cases he : h.existsErr w e with
    | some err => rw [loop_cons_lookup_fails h e rest w err he]
    | none =>
      by_cases hin : e ∈ w.chain
      · cases hd : h.deleteErr ⟨w.chain, w.calls ++ [Call.check e]⟩ e with
        | some err => rw [loop_cons_delete_fails h e rest w err he hin hd]
        | none =>
          rw [loop_cons_deleted h e rest w he hin hd, ih hrest]
          exact filter_erase_rejected keep e (hk e (List.mem_cons_self _ _)) w.chain
      · rw [loop_cons_absent h e rest w he hin, ih hrest]

/-- C11 as stated fails on positions: on a chain that holds the IPv4 legacy
entry ahead of the current spec, the sweep succeeds and deletes the legacy
entry, and the current spec, which was the second rule of the chain, is the
first rule afterwards. -/
theorem C11_current_rule_index_shifts :
    migrationTable.chain = [legacyA, podEgressArgs ⟨false, none⟩ scenarioGlobals] ∧
    (deleteBadPodEgressRules ⟨false, none⟩ scenarioGlobals healthy migrationTable).1 = none ∧
    (deleteBadPodEgressRules ⟨false, none⟩ scenarioGlobals healthy migrationTable).2.chain =
      [podEgressArgs ⟨false, none⟩ scenarioGlobals] ∧
    migrationTable.chain.indexOf (podEgressArgs ⟨false, none⟩ scenarioGlobals) = 1 ∧
    (deleteBadPodEgressRules ⟨false, none⟩ scenarioGlobals healthy
      migrationTable).2.chain.indexOf (podEgressArgs ⟨false, none⟩ scenarioGlobals) = 0 := by
  decide

/-- C11, amended. For both families and both modes (the globals are those a
derivation from the initial templates leaves, for any egress address): the
active spec differs from every entry of the family's legacy catalog, and for
every chain and every handle `deleteBadPodEgressRules` leaves the number of
rules equal to the active spec unchanged and keeps every rule that is not a
legacy entry, in the same order relative to one another: the chain without its
legacy entries is the same list before and after, and the chain after is the
chain before with some rules removed. -/
theorem C11_sweep_keeps_current_rule (pod node : String) (nrc : NetworkRoutingController)
    (g : Globals) (h : IptablesCmdHandler) (w : Iptables)
    (hg : preparePodEgress nrc (initGlobals pod node) = some g) :
    (∀ b ∈ podEgressArgsBad nrc g, podEgressArgs nrc g ≠ b) ∧
    (deleteBadPodEgressRules nrc g h w).2.chain.count (podEgressArgs nrc g) =
      w.chain.count (podEgressArgs nrc g) ∧
    (deleteBadPodEgressRules nrc g h w).2.chain.filter
        (fun r => decide (r ∉ podEgressArgsBad nrc g)) =
      w.chain.filter (fun r => decide (r ∉ podEgressArgsBad nrc g)) ∧
    List.Sublist (deleteBadPodEgressRules nrc g h w).2.chain w.chain := by
  obtain ⟨_, b, hb, hne⟩ := prepared_catalog pod node nrc g hg
  have hdiff : ∀ c ∈ podEgressArgsBad nrc g, podEgressArgs nrc g ≠ c := by
    intro c hc
    rw [hb] at hc
    rw [List.mem_singleton.mp hc]
    exact hne
  have hfilter : (deleteBadPodEgressRules nrc g h w).2.chain.filter
        (fun r => decide (r ∉ podEgressArgsBad nrc g)) =
      w.chain.filter (fun r => decide (r ∉ podEgressArgsBad nrc g)) := by
    unfold deleteBadPodEgressRules
    cases hn : h.newIptablesCmdHandler w with
    | some e => rfl
    | none => exact loop_keeps_others h _ _ (fun c hc => by simpa using hc) w
  have hsub : List.Sublist (deleteBadPodEgressRules nrc g h w).2.chain w.chain := by
    unfold deleteBadPodEgressRules
    cases hn : h.newIptablesCmdHandler w with
    | some e => exact List.Sublist.refl _
    | none => exact loop_chain_sublist h _ w
  refine ⟨hdiff, ?_, hfilter, hsub⟩
  have hkeep : (fun r => decide (r ∉ podEgressArgsBad nrc g)) (podEgressArgs nrc g) = true := by
    simpa using fun hmem => hdiff _ hmem rfl
  have e1 : ((deleteBadPodEgressRules nrc g h w).2.chain.filter
      (fun r => decide (r ∉ podEgressArgsBad nrc g))).count (podEgressArgs nrc g) =
      (deleteBadPodEgressRules nrc g h w).2.chain.count (podEgressArgs nrc g) :=
    List.count_filter hkeep
  have e2 : (w.chain.filter
      (fun r => decide (r ∉ podEgressArgsBad nrc g))).count (podEgressArgs nrc g) =
      w.chain.count (podEgressArgs nrc g) :=
    List.count_filter hkeep
  rw [← e1, ← e2, hfilter]

/-- C11 amended, on the scenario: the legacy entry ahead of the current spec. -/
theorem C11_sweep_keeps_current_rule_witness :
    (deleteBadPodEgressRules ⟨false, none⟩ scenarioGlobals healthy migrationTable).2.chain.count
        (podEgressArgs ⟨false, none⟩ scenarioGlobals) =
      migrationTable.chain.count (podEgressArgs ⟨false, none⟩ scenarioGlobals) :=
  (C11_sweep_keeps_current_rule "pod-subnets" "node-addrs" ⟨false, none⟩ scenarioGlobals
    healthy migrationTable rfl).2.1

/-- C12. `preparePodEgress` changes only the active spec of the controller's
own family: whenever it returns, a call on an IPv4 controller leaves
`podEgressArgs6` and both legacy catalogs unchanged and a call on an IPv6
controller leaves `podEgressArgs4` and both legacy catalogs unchanged, for
every egress address and from any globals; a call with no egress address
returns the globals unchanged; and it does return whenever the family's
template is not empty. -/
theorem C12_prepare_frame (nrc : NetworkRoutingController) (g : Globals) :
    (∀ g1, preparePodEgress nrc g = some g1 →
      (nrc.isIpv6 = false → g1.podEgressArgs6 = g.podEgressArgs6) ∧
      (nrc.isIpv6 = true → g1.podEgressArgs4 = g.podEgressArgs4) ∧
      g1.podEgressArgsBad4 = g.podEgressArgsBad4 ∧
      g1.podEgressArgsBad6 = g.podEgressArgsBad6) ∧
    (nrc.egressIP = none → preparePodEgress nrc g = some g) ∧
    (podEgressArgs nrc g ≠ [] → ∃ g1, preparePodEgress nrc g = some g1) := by
  rcases nrc with ⟨v6, egress⟩
  refine ⟨?_, ?_, ?_⟩
  · intro g1 hg1
    cases egress with
    | none =>
      simp only [preparePodEgress, Option.some.injEq] at hg1
      subst hg1
      simp
    | some a =>
      cases v6
      · by_cases hl : g.podEgressArgs4.length = 0
        · simp [preparePodEgress, hl] at hg1
        · simp only [preparePodEgress, Bool.false_eq_true, if_false, hl,
            Option.some.injEq] at hg1
          subst hg1
          simp
      · by_cases hl : g.podEgressArgs6.length = 0
        · simp [preparePodEgress, hl] at hg1
        · simp only [preparePodEgress, if_true, hl, if_false, Option.some.injEq] at hg1
          subst hg1
          simp
  · intro hnone
    simp only at hnone
    subst hnone
    rfl
  · intro hne
    cases egress with
    | none => exact ⟨g, rfl⟩
    | some a =>
      cases v6
      · have hl : ¬ g.podEgressArgs4.length = 0 := by
          simpa [podEgressArgs] using hne
        exact ⟨_, by simp only [preparePodEgress, Bool.false_eq_true, if_false, hl]; rfl⟩
      · have hl : ¬ g.podEgressArgs6.length = 0 := by
          simpa [podEgressArgs] using hne
        exact ⟨_, by simp only [preparePodEgress, if_true, hl, if_false]; rfl⟩

/-- C12 on the scenario: an IPv4 derivation with SNAT to `10.0.0.9` rewrites
`podEgressArgs4` and nothing else. -/
theorem C12_prepare_frame_witness :
    ∃ g1, preparePodEgress ⟨false, some "10.0.0.9"⟩ scenarioGlobals = some g1 ∧
      g1.podEgressArgs6 = scenarioGlobals.podEgressArgs6 ∧
      g1.podEgressArgsBad4 = scenarioGlobals.podEgressArgsBad4 ∧
      g1.podEgressArgsBad6 = scenarioGlobals.podEgressArgsBad6 ∧
      g1.podEgressArgs4 ≠ scenarioGlobals.podEgressArgs4 :=
  ⟨_, rfl,
    ((C12_prepare_frame ⟨false, some "10.0.0.9"⟩ scenarioGlobals).1 _ rfl).1 rfl,
    ((C12_prepare_frame ⟨false, some "10.0.0.9"⟩ scenarioGlobals).1 _ rfl).2.2.1,
    ((C12_prepare_frame ⟨false, some "10.0.0.9"⟩ scenarioGlobals).1 _ rfl).2.2.2,
    by decide⟩

/-- C13. With `AppendUnique` appending at the end when absent and `Delete`
removing one exactly-matching rule: from a chain that holds no rule equal to
the active spec, a successful `createPodEgressRule` appends the spec and a
successful `deletePodEgressRule` with unchanged configuration then yields
exactly the original chain, the same rules in the same order. -/
theorem C13_create_delete_round_trip (nrc : NetworkRoutingController) (g : Globals)
    (h : IptablesCmdHandler) (w : Iptables)
    (habs : podEgressArgs nrc g ∉ w.chain)
    (hc : (createPodEgressRule nrc g h w).1 = none)
    (hd : (deletePodEgressRule nrc g h (createPodEgressRule nrc g h w).2).1 = none) :
    (createPodEgressRule nrc g h w).2.chain = w.chain ++ [podEgressArgs nrc g] ∧
    (deletePodEgressRule nrc g h (createPodEgressRule nrc g h w).2).2.chain = w.chain := by
  have e1 : (createPodEgressRule nrc g h w).2.chain = w.chain ++ [podEgressArgs nrc g] := by
    unfold createPodEgressRule IptablesCmdHandler.AppendUnique at hc ⊢
    cases hn : h.newIptablesCmdHandler w with
    | some e => simp [hn] at hc
    | none =>
      cases ha : h.appendUniqueErr w (podEgressArgs nrc g) with
      | some e => simp [hn, ha] at hc
      | none => simp [hn, ha, habs]
  refine ⟨e1, ?_⟩
  have hin : podEgressArgs nrc g ∈ (createPodEgressRule nrc g h w).2.chain := by
    rw [e1]; simp
  have herase : (createPodEgressRule nrc g h w).2.chain.erase (podEgressArgs nrc g) =
      w.chain := by
    rw [e1, List.erase_append_right _ habs]
    simp
  generalize (createPodEgressRule nrc g h w).2 = w1 at hd hin herase ⊢
  unfold deletePodEgressRule IptablesCmdHandler.Exists IptablesCmdHandler.Delete at hd ⊢
  cases hn : h.newIptablesCmdHandler w1 with
  | some e => simp [hn] at hd
  | none =>
    cases he : h.existsErr w1 (podEgressArgs nrc g) with
    | some e => simp [hn, he] at hd
    | none =>
      cases hde : h.deleteErr ⟨w1.chain, w1.calls ++ [Call.check (podEgressArgs nrc g)]⟩
          (podEgressArgs nrc g) with
      | some e => simp [hn, he, hin, hde] at hd
      | none => simp [hin, hde, herase]

/-- C13 on the scenario: IPv4, masquerade, a chain with one unrelated rule. -/
theorem C13_create_delete_round_trip_witness :
    (deletePodEgressRule ⟨false, none⟩ scenarioGlobals strictDelete
      (createPodEgressRule ⟨false, none⟩ scenarioGlobals strictDelete scenarioTable).2).2.chain =
      scenarioTable.chain :=
  (C13_create_delete_round_trip ⟨false, none⟩ scenarioGlobals strictDelete scenarioTable
    (by decide) (by decide) (by decide)).2

end PodEgress
